import Mathlib

/-!
Verification of the `ralph_manager.py` task supervisor (memail repository).

The module manages long-running background tasks: it persists a registry of
task records in a JSON state file, spawns detached processes, probes their
liveness, reconciles exit codes, kills process groups, tails log files and
cleans up terminal records together with their log sidecars.

The shallow embedding below translates the Python module into Lean.
State is passed explicitly (each Python function loads the state, possibly
mutates it and saves it back; here the resulting document is returned).
OS interactions (signal probes, `waitpid`, `killpg`) are modelled by explicit
oracle records describing the outcome of each OS call, and timestamps are
abstract naturals (ISO-8601 strings compare lexicographically in the same
order as the instants they denote).
-/

namespace Ralph

/-- Task status enumeration: the `status` field of a task record.
`failed` is defined in the schema but never assigned by the code. -/
inductive Status where
  | running
  | completed
  | killed
  | failed
deriving DecidableEq, Repr

/-- A task record, as built by `run_task` and stored in the state file. -/
structure Task where
  id : String
  name : String
  command : String
  pid : Nat
  status : Status
  started_at : Nat
  timeout : Nat
  output_file : String
  exit_code : Option Int
  completed_at : Option Nat
deriving DecidableEq, Repr

/-- The state document: `{'tasks': {...}, 'next_id': n}`.  The Python dict
is insertion ordered, modelled as an association list. -/
structure Document where
  tasks : List (String × Task)
  next_id : Nat
deriving DecidableEq, Repr

/-- Lookup in the task mapping: `state['tasks'].get(task_id)`. -/
def lookupTask : List (String × Task) → String → Option Task
  | [], _ => none
  | (k, v) :: rest, i => if k = i then some v else lookupTask rest i

/-- Assignment `state['tasks'][task_id] = task` on the insertion-ordered
mapping: replaces in place when the key exists, appends otherwise. -/
def setTask : List (String × Task) → String → Task → List (String × Task)
  | [], i, t => [(i, t)]
  | (k, v) :: rest, i, t => if k = i then (i, t) :: rest else (k, v) :: setTask rest i t

/-- The fresh empty document `{'tasks': {}, 'next_id': 1}`. -/
def freshDoc : Document := { tasks := [], next_id := 1 }

/-! ## JSON values and the state file

`load_state` runs `json.load` and falls back to the fresh document only on
`JSONDecodeError` or `IOError`; whatever JSON value the file parses to is
returned as-is.  A file on disk is therefore modelled by what reading and
parsing it yields. -/

/-- JSON values, the image of Python's `json.load`. -/
inductive Json where
  | null
  | bool (b : Bool)
  | num (n : Int)
  | str (s : String)
  | arr (elems : List Json)
  | obj (fields : List (String × Json))

/-- The on-disk state file, by what opening and parsing it yields:
absent, unreadable (`IOError`), not valid JSON (`json.JSONDecodeError`),
or parsed to a JSON value. -/
inductive FileContent where
  | missing
  | unreadable
  | invalidJson
  | parsed (v : Json)

/-- JSON form of the fresh empty document. -/
def freshJson : Json := Json.obj [("tasks", Json.obj []), ("next_id", Json.num 1)]

/-- `load_state`: returns the parsed JSON value; a missing file, an
`IOError` or a `JSONDecodeError` yields the fresh empty document. -/
def load_state : FileContent → Json
  | FileContent.missing => freshJson
  | FileContent.unreadable => freshJson
  | FileContent.invalidJson => freshJson
  | FileContent.parsed v => v

/-! ## Serialization of documents

`save_state` writes the document with `json.dump`; a document whose values
are JSON-representable (all of them here) round-trips through the textual
form, so saving is modelled as storing the document's JSON value. -/

/-- The string stored for each status value. -/
def statusStr : Status → String
  | Status.running => "running"
  | Status.completed => "completed"
  | Status.killed => "killed"
  | Status.failed => "failed"

/-- Parse a status string back. -/
def statusOfStr : String → Option Status
  | "running" => some Status.running
  | "completed" => some Status.completed
  | "killed" => some Status.killed
  | "failed" => some Status.failed
  | _ => none

/-- Encode an optional timestamp (`null` when absent). -/
def encodeOptNat : Option Nat → Json
  | none => Json.null
  | some n => Json.num n

/-- Decode an optional timestamp. -/
def decodeOptNat : Json → Option (Option Nat)
  | Json.null => some none
  | Json.num n => n.toNat'.map some
  | _ => none

/-- Encode an optional exit code (`null` when absent). -/
def encodeOptInt : Option Int → Json
  | none => Json.null
  | some n => Json.num n

/-- Decode an optional exit code. -/
def decodeOptInt : Json → Option (Option Int)
  | Json.null => some none
  | Json.num n => some (some n)
  | _ => none

/-- JSON encoding of a task record, with the field names and order used by
`run_task`. -/
def encodeTask (t : Task) : Json :=
  Json.obj [
    ("id", Json.str t.id),
    ("name", Json.str t.name),
    ("command", Json.str t.command),
    ("pid", Json.num t.pid),
    ("status", Json.str (statusStr t.status)),
    ("started_at", Json.num t.started_at),
    ("timeout", Json.num t.timeout),
    ("output_file", Json.str t.output_file),
    ("exit_code", encodeOptInt t.exit_code),
    ("completed_at", encodeOptNat t.completed_at)]

/-- Decode a task record from its JSON encoding. -/
def decodeTask : Json → Option Task
  | Json.obj [
      ("id", Json.str i),
      ("name", Json.str nm),
      ("command", Json.str c),
      ("pid", Json.num p),
      ("status", Json.str st),
      ("started_at", Json.num sa),
      ("timeout", Json.num tmo),
      ("output_file", Json.str of),
      ("exit_code", ec),
      ("completed_at", ca)] =>
    match statusOfStr st, decodeOptInt ec, decodeOptNat ca,
        p.toNat', sa.toNat', tmo.toNat' with
    | some status, some exit_code, some completed_at,
        some pid, some started_at, some timeout =>
      some { id := i, name := nm, command := c, pid := pid, status := status,
             started_at := started_at, timeout := timeout, output_file := of,
             exit_code := exit_code, completed_at := completed_at }
    | _, _, _, _, _, _ => none
  | _ => none

/-- Encode the task mapping. -/
def encodeTasks (l : List (String × Task)) : List (String × Json) :=
  l.map (fun p => (p.1, encodeTask p.2))

/-- Decode the task mapping. -/
def decodeTasks : List (String × Json) → Option (List (String × Task))
  | [] => some []
  | (k, j) :: rest =>
    match decodeTask j, decodeTasks rest with
    | some t, some ts => some ((k, t) :: ts)
    | _, _ => none

/-- JSON encoding of a document. -/
def encodeDoc (d : Document) : Json :=
  Json.obj [("tasks", Json.obj (encodeTasks d.tasks)), ("next_id", Json.num d.next_id)]

/-- Decode a document from its JSON encoding. -/
def decodeDoc : Json → Option Document
  | Json.obj [("tasks", Json.obj tj), ("next_id", Json.num n)] =>
    match decodeTasks tj, n.toNat' with
    | some ts, some nid => some { tasks := ts, next_id := nid }
    | _, _ => none
  | _ => none

/-- `save_state`: full-document overwrite of the state file. -/
def save_state (d : Document) : FileContent := FileContent.parsed (encodeDoc d)

/-! ## Liveness probe: `check_task`

OS interaction is modelled by an oracle: `alive pid` is whether
`os.kill(pid, 0)` succeeds (false means it raises `OSError`), and
`reap pid` is the outcome of `os.waitpid(pid, os.WNOHANG)`: `some status`
when it returns, `none` when it raises `ChildProcessError`. -/

/-- Outcomes of the OS calls made while probing a pid. -/
structure OSEnv where
  alive : Nat → Bool
  reap : Nat → Option Nat

/-- `os.WIFEXITED`: the wait status denotes a normal exit
(low seven bits zero). -/
def WIFEXITED (s : Nat) : Bool := s % 128 == 0

/-- `os.WEXITSTATUS`: the exit code carried by a wait status. -/
def WEXITSTATUS (s : Nat) : Nat := s / 256 % 256

/-- Exit-code reconciliation inside `check_task`: `WEXITSTATUS(status)` when
the reap observes a normal exit, `-1` when the observed status is not a
normal exit, and `0` when `waitpid` raises `ChildProcessError`. -/
def reconcileExit : Option Nat → Int
  | some s => if WIFEXITED s then (WEXITSTATUS s : Int) else -1
  | none => 0

/-- `check_task`: look the task up; when it is `running` and its pid no
longer exists, transition it to `completed`, stamp `completed_at`,
reconcile an exit code and save; otherwise the state is untouched.
Returns the final state (as saved) and the returned record. -/
def check_task (env : OSEnv) (now : Nat) (state : Document) (task_id : String) :
    Document × Option Task :=
  match lookupTask state.tasks task_id with
  | none => (state, none)
  | some task =>
    if task.status = Status.running then
      if env.alive task.pid then
        (state, some task)
      else
        let task' : Task := { task with
          status := Status.completed
          completed_at := some now
          exit_code := some (reconcileExit (env.reap task.pid)) }
        ({ state with tasks := setTask state.tasks task_id task' }, some task')
    else
      (state, some task)

/-! ## Output reader: `get_task_output` -/

/-- A task's log file, by what opening and reading it yields. -/
inductive LogFile where
  | absent
  | ioError (msg : String)
  | lines (ls : List String)
deriving DecidableEq, Repr

/-- `get_task_output`: returns at most the last `tail` lines of the log
(`lines[-tail:]`, each line carrying its newline, joined with `''`), the
whole file when `tail <= 0`, and a descriptive message when the task id is
unknown, the log file is missing, or reading raises `IOError`. -/
def get_task_output (state : Document) (fs : String → LogFile) (task_id : String)
    (tail : Int) : String :=
  match lookupTask state.tasks task_id with
  | none => "Task " ++ task_id ++ " not found"
  | some task =>
    match fs task.output_file with
    | LogFile.absent => "No output file found"
    | LogFile.ioError e => "Error reading output: " ++ e
    | LogFile.lines ls =>
      let kept := if tail > 0 then ls.drop (ls.length - tail.toNat) else ls
      String.join kept

/-! ## Terminator: `kill_task`

The OS calls of the kill sequence are modelled in order: `pgid1` is
`os.getpgid(pid)` before SIGTERM (`none` = `OSError`); `termRaises` is
whether `os.killpg(pgid, SIGTERM)` raises; `aliveAfterTerm` is whether
`os.kill(pid, 0)` succeeds after the 0.5 s grace sleep; `pgid2` is
`os.getpgid(pid)` before SIGKILL; `killRaises` is whether
`os.killpg(pgid, SIGKILL)` raises.  Errors in the first two calls hit the
outer `except OSError` (return `False`); errors in the last three are
swallowed by the inner `except OSError: pass`. -/

/-- Outcomes of the OS calls made by `kill_task`. -/
structure KillEnv where
  pgid1 : Option Nat
  termRaises : Bool
  aliveAfterTerm : Bool
  pgid2 : Option Nat
  killRaises : Bool

/-- Observable OS actions of `kill_task`: signals delivered to a process
group and the grace sleep, in program order. -/
inductive KillEv where
  | sigterm (pgid : Nat)
  | sleepMs (ms : Nat)
  | sigkill (pgid : Nat)
deriving DecidableEq, Repr

/-- The events of the forceful phase: nothing when the process is already
gone after the grace interval, and a SIGKILL to the group otherwise —
provided neither `os.getpgid` nor `os.killpg` raises (such an `OSError`
is swallowed). -/
def forcePhase (env : KillEnv) : List KillEv :=
  if env.aliveAfterTerm then
    match env.pgid2 with
    | none => []
    | some pg2 => if env.killRaises then [] else [KillEv.sigkill pg2]
  else []

/-- `kill_task`: no-op returning `false` when the task is absent or not
`running`; otherwise SIGTERM the process group, sleep 0.5 s, re-probe, and
SIGKILL the group if the process is still alive; then set status `killed`,
stamp `completed_at`, save, and return `true`.  An `OSError` from locating
the group or delivering SIGTERM yields `false` with no state change.
Returns the final state, the success flag, and the OS events performed. -/
def kill_task (env : KillEnv) (now : Nat) (state : Document) (task_id : String) :
    Document × Bool × List KillEv :=
  match lookupTask state.tasks task_id with
  | none => (state, false, [])
  | some task =>
    if task.status ≠ Status.running then (state, false, [])
    else
      match env.pgid1 with
      | none => (state, false, [])
      | some pg =>
        if env.termRaises then (state, false, [KillEv.sigterm pg])
        else
          let evs := KillEv.sigterm pg :: KillEv.sleepMs 500 :: forcePhase env
          let task' : Task := { task with
            status := Status.killed
            completed_at := some now }
          ({ state with tasks := setTask state.tasks task_id task' }, true, evs)

/-! ## Listing: `list_tasks` -/

/-- One pass of the re-probe loop in `list_tasks`: `check_task` is invoked
for each task of the loaded snapshot whose status is `running`, threading
the store through. -/
def probeAll (env : OSEnv) (now : Nat) (state : Document) (ids : List String) : Document :=
  ids.foldl (fun s tid => (check_task env now s tid).1) state

/-- The display filter of `list_tasks`: keep tasks that are `running` or
started within the last 24 hours (86400 s). -/
def recentOrRunning (now : Nat) (t : Task) : Bool :=
  t.status = Status.running || (t.started_at : Int) > (now : Int) - 86400

/-- `list_tasks`: re-probe every `running` task of the snapshot, reload,
optionally filter to recent-or-running, and sort most-recently-started
first (Python's stable `sorted` with `reverse=True`).  Returns the final
store state and the listed tasks. -/
def list_tasks (env : OSEnv) (now : Nat) (show_all : Bool) (state : Document) :
    Document × List Task :=
  let runningIds := state.tasks.filterMap
    (fun p => if p.2.status = Status.running then some p.2.id else none)
  let state1 := probeAll env now state runningIds
  let tasks := state1.tasks.map Prod.snd
  let tasks := if show_all then tasks else tasks.filter (recentOrRunning now)
  (state1, tasks.mergeSort (fun a b => decide (b.started_at ≤ a.started_at)))

/-! ## Cleaner: `clean_tasks`

The log directory is modelled by the stems (file name minus `.log`) of the
files matched by the glob `ralph_*.log`; a file is deleted exactly when its
stem is not a key of the rewritten task mapping. -/

/-- `clean_tasks`: retain only `running` tasks (or none when
`keep_running` is false), save, delete every matched log file whose stem is
no longer a stored task id, and return the final state, the surviving log
stems, and the number of removed records. -/
def clean_tasks (keep_running : Bool) (state : Document) (logStems : List String) :
    Document × List String × Nat :=
  let original_count := state.tasks.length
  let newTasks := if keep_running
    then state.tasks.filter (fun p => p.2.status = Status.running)
    else []
  let state' : Document := { state with tasks := newTasks }
  let retained := logStems.filter (fun s => (lookupTask newTasks s).isSome)
  (state', retained, original_count - newTasks.length)

/-! ## Creation: `generate_task_id` and `run_task` -/

/-- Decimal digit characters. -/
def digitChar : Nat → Char
  | 0 => '0' | 1 => '1' | 2 => '2' | 3 => '3' | 4 => '4'
  | 5 => '5' | 6 => '6' | 7 => '7' | 8 => '8' | 9 => '9'
  | _ => '*'

/-- Decimal digit characters of `n`, most significant first. -/
def decChars (n : Nat) : List Char :=
  if n = 0 then ['0'] else ((Nat.digits 10 n).reverse).map digitChar

/-- Python's `f"{n:04d}"`: the decimal form of `n`, left-padded with zeros
to at least four characters. -/
def pad4 (n : Nat) : String :=
  String.mk (List.replicate (4 - (decChars n).length) '0' ++ decChars n)

/-- The id string generated for counter value `n`: `f"ralph_{n:04d}"`. -/
def taskIdOf (n : Nat) : String := "ralph_" ++ pad4 n

/-- `generate_task_id`: formats `next_id` and increments it. -/
def generate_task_id (state : Document) : String × Document :=
  (taskIdOf state.next_id, { state with next_id := state.next_id + 1 })

/-- `run_task`: allocate the id, spawn the command detached (the launcher
returns the child's pid, modelled as an input), build the record with
`status=running`, store and save it, and return it. -/
def run_task (pid : Nat) (now : Nat) (state : Document)
    (command name : String) (timeout : Nat) : Document × Task :=
  let idState := generate_task_id state
  let task_id := idState.1
  let state1 := idState.2
  let task : Task := {
    id := task_id
    name := name
    command := command
    pid := pid
    status := Status.running
    started_at := now
    timeout := timeout
    output_file := "/tmp/ralph/" ++ task_id ++ ".log"
    exit_code := none
    completed_at := none }
  ({ state1 with tasks := setTask state1.tasks task_id task }, task)

/-- One store round-trip: what a later invocation reads back after
`save_state`, decoded into a document (the fresh document on failure,
mirroring `load_state`'s fallback). -/
def storeCycle (d : Document) : Document :=
  (decodeDoc (load_state (save_state d))).getD freshDoc

/-- Inputs of one `create` call: the pid handed out by the launcher, the
wall-clock instant, and the command, name and timeout arguments. -/
structure CreateReq where
  pid : Nat
  now : Nat
  command : String
  name : String
  timeout : Nat

/-- A sequence of `create` calls, each starting with the store's
load/save cycle; returns the final document and the generated ids in
order. -/
def createSeq : Document → List CreateReq → Document × List String
  | d, [] => (d, [])
  | d, r :: rs =>
    let step := run_task r.pid r.now (storeCycle d) r.command r.name r.timeout
    let rest := createSeq step.1 rs
    (rest.1, step.2.id :: rest.2)

theorem toNat'_natCast (n : Nat) : Int.toNat' (n : Int) = some n := rfl

theorem statusOfStr_statusStr (s : Status) : statusOfStr (statusStr s) = some s := by
  cases s <;> rfl

theorem decodeTask_encodeTask (t : Task) : decodeTask (encodeTask t) = some t := by
  cases t with
  | mk i nm c p st sa tmo of ec ca =>
    cases st <;> cases ec <;> cases ca <;> rfl

theorem decodeTasks_encodeTasks : ∀ l, decodeTasks (encodeTasks l) = some l
  | [] => rfl
  | hd :: tl => by
    have h2 := decodeTasks_encodeTasks tl
    show (match decodeTask (encodeTask hd.2), decodeTasks (encodeTasks tl) with
      | some t, some ts => some ((hd.1, t) :: ts)
      | _, _ => none) = some (hd :: tl)
    rw [decodeTask_encodeTask, h2]

theorem decodeDoc_encodeDoc (d : Document) : decodeDoc (encodeDoc d) = some d := by
  cases d with
  | mk ts n =>
    simp [encodeDoc, decodeDoc, decodeTasks_encodeTasks, toNat'_natCast]

/-! ## Helper lemmas about the task mapping -/

theorem lookupTask_setTask_self (l : List (String × Task)) (k : String) (v : Task) :
    lookupTask (setTask l k v) k = some v := by
  induction l with
  | nil => simp [setTask, lookupTask]
  | cons hd tl ih =>
    by_cases h : hd.1 = k
    · simp [setTask, lookupTask, h]
    · simp [setTask, lookupTask, h, ih]

theorem setTask_keys (l : List (String × Task)) (k : String) (v v0 : Task)
    (hl : lookupTask l k = some v0) :
    (setTask l k v).map Prod.fst = l.map Prod.fst := by
  induction l with
  | nil => simp [lookupTask] at hl
  | cons hd tl ih =>
    by_cases h : hd.1 = k
    · simp [setTask, h]
    · simp [lookupTask, h] at hl
      simp [setTask, h, ih hl]

theorem lookupTask_isSome_iff (l : List (String × Task)) (k : String) :
    (lookupTask l k).isSome = true ↔ k ∈ l.map Prod.fst := by
  induction l with
  | nil => simp [lookupTask]
  | cons hd tl ih =>
    by_cases h : hd.1 = k
    · simp [lookupTask, h]
    · simp [lookupTask, h, ih, Ne.symm h]

theorem check_task_fst_keys (env : OSEnv) (now : Nat) (s : Document) (tid : String) :
    (check_task env now s tid).1.tasks.map Prod.fst = s.tasks.map Prod.fst := by
  unfold check_task
  cases hl : lookupTask s.tasks tid with
  | none => rfl
  | some t =>
    by_cases hr : t.status = Status.running
    · by_cases ha : env.alive t.pid
      · simp [hr, ha]
      · simp only [hr, if_true, Bool.not_eq_true] at *
        simp [ha, setTask_keys s.tasks tid _ t hl]
    · simp [hr]

theorem probeAll_fst_keys (env : OSEnv) (now : Nat) (ids : List String) :
    ∀ s : Document, (probeAll env now s ids).tasks.map Prod.fst = s.tasks.map Prod.fst := by
  induction ids with
  | nil => intro s; rfl
  | cons hd tl ih =>
    intro s
    show (probeAll env now ((check_task env now s hd).1) tl).tasks.map Prod.fst = _
    rw [ih, check_task_fst_keys]

theorem length_sub_length_filter (l : List (String × Task)) (p : String × Task → Bool) :
    l.length - (l.filter p).length = (l.filter (fun x => !p x)).length := by
  induction l with
  | nil => rfl
  | cons hd tl ih =>
    have hlen : (tl.filter p).length ≤ tl.length := List.length_filter_le _ _
    by_cases h : p hd <;> simp [List.filter_cons, h] <;> omega

/-! ## Injectivity of the generated id strings -/

/-- Numeric value of a digit character. -/
def digitVal (c : Char) : Nat := c.toNat - 48

/-- Decimal value of a big-endian digit-character list. -/
def valChars (cs : List Char) : Nat := cs.foldl (fun a c => 10 * a + digitVal c) 0

theorem digitVal_digitChar {d : Nat} (h : d < 10) : digitVal (digitChar d) = d := by
  interval_cases d <;> rfl

theorem foldl_val_replicate_zero (k : Nat) :
    List.foldl (fun a c => 10 * a + digitVal c) 0 (List.replicate k '0') = 0 := by
  induction k with
  | zero => rfl
  | succ n ih => simpa [List.replicate_succ, digitVal] using ih

theorem foldl_val_horner (L : List Nat) (acc : Nat) (h : ∀ d ∈ L, d < 10) :
    List.foldl (fun a c => 10 * a + digitVal c) acc (L.reverse.map digitChar) =
      acc * 10 ^ L.length + Nat.ofDigits 10 L := by
  induction L generalizing acc with
  | nil => simp [Nat.ofDigits]
  | cons x T ih =>
    have hx : x < 10 := h x (by simp)
    have hT : ∀ d ∈ T, d < 10 := fun d hd => h d (by simp [hd])
    simp only [List.reverse_cons, List.map_append, List.map_cons, List.map_nil,
      List.foldl_append, List.foldl_cons, List.foldl_nil]
    rw [ih acc hT, digitVal_digitChar hx, Nat.ofDigits_cons, List.length_cons, pow_succ]
    ring

theorem valChars_decChars (n : Nat) : valChars (decChars n) = n := by
  by_cases h : n = 0
  · subst h; rfl
  · have hd : ∀ d ∈ Nat.digits 10 n, d < 10 :=
      fun d hdm => Nat.digits_lt_base (by norm_num) hdm
    simp only [decChars, h, if_false, valChars]
    rw [foldl_val_horner _ 0 hd, Nat.ofDigits_digits]
    simp

theorem valChars_pad4 (n : Nat) : valChars (pad4 n).data = n := by
  show valChars (List.replicate (4 - (decChars n).length) '0' ++ decChars n) = n
  have := foldl_val_replicate_zero (4 - (decChars n).length)
  simp only [valChars, List.foldl_append, this]
  exact valChars_decChars n

theorem pad4_injective : Function.Injective pad4 := by
  intro m n h
  have := congrArg String.data h
  calc m = valChars (pad4 m).data := (valChars_pad4 m).symm
    _ = valChars (pad4 n).data := by rw [this]
    _ = n := valChars_pad4 n

theorem taskIdOf_injective : Function.Injective taskIdOf := by
  intro m n h
  apply pad4_injective
  have hd := congrArg String.data h
  simp only [taskIdOf] at hd
  have hd' : "ralph_".data ++ (pad4 m).data = "ralph_".data ++ (pad4 n).data := by
    simpa [String.data_append] using hd
  have hdata : (pad4 m).data = (pad4 n).data := List.append_cancel_left hd'
  cases hm : pad4 m with
  | mk dm =>
    cases hn : pad4 n with
    | mk dn =>
      rw [hm, hn] at hdata
      simp only at hdata
      exact congrArg String.mk hdata

theorem storeCycle_eq (d : Document) : storeCycle d = d := by
  simp [storeCycle, load_state, save_state, decodeDoc_encodeDoc d]

theorem createSeq_ids (reqs : List CreateReq) : ∀ d : Document,
    (createSeq d reqs).2 =
      (List.range reqs.length).map (fun i => taskIdOf (d.next_id + i)) := by
  induction reqs with
  | nil => intro _; rfl
  | cons r rs ih =>
    intro d
    show ((createSeq (run_task r.pid r.now (storeCycle d) r.command r.name r.timeout).1 rs).1,
        (run_task r.pid r.now (storeCycle d) r.command r.name r.timeout).2.id ::
          (createSeq (run_task r.pid r.now (storeCycle d) r.command r.name r.timeout).1 rs).2).2 =
      (List.range (rs.length + 1)).map (fun i => taskIdOf (d.next_id + i))
    rw [storeCycle_eq]
    have hid : (run_task r.pid r.now d r.command r.name r.timeout).2.id = taskIdOf d.next_id := rfl
    have hnext : (run_task r.pid r.now d r.command r.name r.timeout).1.next_id = d.next_id + 1 := rfl
    rw [List.range_succ_eq_map, List.map_cons, List.map_map]
    show _ :: _ = taskIdOf (d.next_id + 0) :: _
    rw [Nat.add_zero, ih, hnext]
    refine congrArg₂ _ hid (List.map_congr_left fun i _ => ?_)
    show taskIdOf (d.next_id + 1 + i) = taskIdOf (d.next_id + (i + 1))
    exact congrArg taskIdOf (by omega)

/-! ## Claim theorems -/

/-- C1: for a task whose stored status is `running` and whose recorded pid
no longer names an existing process, `check_task` transitions the status to
`completed`, stamps `completed_at`, reconciles an exit code via the
non-blocking reap attempt — defaulting to `0` when the reap cannot observe
a status — and writes the updated record back to the store before
returning it. -/
theorem check_task_completes_dead_process (env : OSEnv) (now : Nat) (d : Document)
    (tid : String) (t : Task)
    (hlook : lookupTask d.tasks tid = some t)
    (hrun : t.status = Status.running)
    (hdead : env.alive t.pid = false) :
    ∃ t' : Task,
      check_task env now d tid = ({ d with tasks := setTask d.tasks tid t' }, some t') ∧
      t'.status = Status.completed ∧
      t'.completed_at = some now ∧
      t'.exit_code = some (reconcileExit (env.reap t.pid)) ∧
      (env.reap t.pid = none → t'.exit_code = some 0) ∧
      lookupTask (check_task env now d tid).1.tasks tid = some t' := by
  refine ⟨{ t with status := Status.completed, completed_at := some now, exit_code := some (reconcileExit (env.reap t.pid)) }, ?_, rfl, rfl, rfl, ?_, ?_⟩
  · simp [check_task, hlook, hrun, hdead]
  · intro hnone; rw [hnone]; rfl
  · simp [check_task, hlook, hrun, hdead, lookupTask_setTask_self]

/-- A concrete running task record used to instantiate theorems. -/
def sampleTask : Task :=
  { id := "ralph_0001", name := "tests", command := "pytest", pid := 42,
    status := Status.running, started_at := 5, timeout := 300,
    output_file := "/tmp/ralph/ralph_0001.log", exit_code := none,
    completed_at := none }

/-- A concrete store holding `sampleTask`. -/
def sampleDoc : Document := { tasks := [("ralph_0001", sampleTask)], next_id := 2 }

/-- An OS oracle for which every pid is gone and every reap raises
`ChildProcessError`. -/
def deadEnv : OSEnv := { alive := fun _ => false, reap := fun _ => none }

/-- Witness for C1 at a concrete store, dead pid and failed reap. -/
theorem check_task_completes_dead_process_witness :
    ∃ t' : Task,
      check_task deadEnv 99 sampleDoc "ralph_0001" =
        ({ sampleDoc with tasks := setTask sampleDoc.tasks "ralph_0001" t' }, some t') ∧
      t'.status = Status.completed ∧ t'.exit_code = some 0 := by
  obtain ⟨t', heq, hst, _, _, hnone, _⟩ :=
    check_task_completes_dead_process deadEnv 99 sampleDoc "ralph_0001" sampleTask
      (by decide) rfl rfl
  exact ⟨t', heq, hst, hnone rfl⟩

/-- C10: whenever `check_task` transitions a task from `running` to
`completed`, the resulting `exit_code` is a non-null integer taking exactly
one of three values: the process's exit status when the non-blocking reap
observes a normal exit, `-1` when the reap observes a status that is not a
normal exit, and `0` when the reap raises because the process is no longer
a waitable child. -/
theorem check_task_exit_code_trichotomy (env : OSEnv) (now : Nat) (d : Document)
    (tid : String) (t : Task)
    (hlook : lookupTask d.tasks tid = some t)
    (hrun : t.status = Status.running)
    (hdead : env.alive t.pid = false) :
    ∃ t' : Task, ∃ e : Int,
      (check_task env now d tid).2 = some t' ∧
      t'.status = Status.completed ∧
      t'.exit_code = some e ∧
      ((∃ s, env.reap t.pid = some s ∧ WIFEXITED s = true ∧ e = (WEXITSTATUS s : Int)) ∨
       (∃ s, env.reap t.pid = some s ∧ WIFEXITED s = false ∧ e = -1) ∨
       (env.reap t.pid = none ∧ e = 0)) := by
  refine ⟨{ t with status := Status.completed, completed_at := some now, exit_code := some (reconcileExit (env.reap t.pid)) }, reconcileExit (env.reap t.pid), ?_, rfl, rfl, ?_⟩
  · simp [check_task, hlook, hrun, hdead]
  · cases hreap : env.reap t.pid with
    | none => exact Or.inr (Or.inr ⟨rfl, by simp [reconcileExit]⟩)
    | some s =>
      by_cases hx : WIFEXITED s
      · exact Or.inl ⟨s, rfl, hx, by simp [reconcileExit, hx]⟩
      · refine Or.inr (Or.inl ⟨s, rfl, by simpa using hx, ?_⟩)
        simp [reconcileExit, hx]

/-- An OS oracle for which every pid is gone and the reap observes the
wait status 256, a normal exit with code 1. -/
def reapEnv : OSEnv := { alive := fun _ => false, reap := fun _ => some 256 }

/-- Witness for C10 at a concrete store where the reap observes wait
status 256 (normal exit, code 1). -/
theorem check_task_exit_code_trichotomy_witness :
    ∃ t' : Task, ∃ e : Int,
      (check_task reapEnv 99 sampleDoc "ralph_0001").2 = some t' ∧
      t'.status = Status.completed ∧
      t'.exit_code = some e ∧
      ((∃ s, reapEnv.reap sampleTask.pid = some s ∧ WIFEXITED s = true ∧
          e = (WEXITSTATUS s : Int)) ∨
       (∃ s, reapEnv.reap sampleTask.pid = some s ∧ WIFEXITED s = false ∧ e = -1) ∨
       (reapEnv.reap sampleTask.pid = none ∧ e = 0)) :=
  check_task_exit_code_trichotomy reapEnv 99 sampleDoc "ralph_0001" sampleTask
    (by decide) rfl rfl

/-- C5: once a task is `completed` or `killed`, `check_task` returns the
record unchanged without touching the store (so repeated checks are
idempotent and never re-mutate `completed_at`, `exit_code` or `status`),
and `kill_task` returns `false` without mutating the record. -/
theorem terminal_tasks_immutable (env : OSEnv) (kenv : KillEnv) (now now2 : Nat)
    (d : Document) (tid : String) (t : Task)
    (hlook : lookupTask d.tasks tid = some t)
    (hterm : t.status = Status.completed ∨ t.status = Status.killed) :
    check_task env now d tid = (d, some t) ∧
    kill_task kenv now2 d tid = (d, false, []) := by
  have hne : ¬ t.status = Status.running := by
    rcases hterm with h | h <;> rw [h] <;> intro hc <;> exact Status.noConfusion hc
  constructor
  · simp [check_task, hlook, hne]
  · simp [kill_task, hlook, hne]

/-- A concrete completed task record. -/
def doneTask : Task :=
  { id := "ralph_0002", name := "build", command := "make", pid := 43,
    status := Status.completed, started_at := 6, timeout := 300,
    output_file := "/tmp/ralph/ralph_0002.log", exit_code := some 0,
    completed_at := some 7 }

/-- A concrete store holding the completed `doneTask`. -/
def doneDoc : Document := { tasks := [("ralph_0002", doneTask)], next_id := 3 }

/-- A kill-sequence oracle in which every OS call succeeds. -/
def okKillEnv : KillEnv :=
  { pgid1 := some 7, termRaises := false, aliveAfterTerm := true,
    pgid2 := some 7, killRaises := false }

/-- Witness for C5 at a concrete store holding a completed task. -/
theorem terminal_tasks_immutable_witness :
    check_task deadEnv 99 doneDoc "ralph_0002" = (doneDoc, some doneTask) ∧
    kill_task okKillEnv 99 doneDoc "ralph_0002" = (doneDoc, false, []) :=
  terminal_tasks_immutable deadEnv okKillEnv 99 99 doneDoc "ralph_0002" doneTask
    (by decide) (Or.inl rfl)

/-- C3 counterexample: the file content `[]` is valid JSON that does not
parse into the Document schema, yet `load_state` returns it unchanged
instead of the fresh empty document — only `JSONDecodeError` and `IOError`
trigger the fallback. -/
theorem load_state_not_schema_checked :
    load_state (FileContent.parsed (Json.arr [])) = Json.arr [] ∧
    decodeDoc (Json.arr []) = none ∧
    load_state (FileContent.parsed (Json.arr [])) ≠ freshJson := by
  refine ⟨rfl, rfl, ?_⟩
  intro h
  rw [show load_state (FileContent.parsed (Json.arr [])) = Json.arr [] from rfl] at h
  exact Json.noConfusion h

/-- C3 (amended): `load_state` returns the fresh empty document
`{'tasks': {}, 'next_id': 1}` when the state file is missing, unreadable
(`IOError`) or not valid JSON (`json.JSONDecodeError`); file content that
parses as JSON is returned as-is, even when it does not conform to the
Document schema. -/
theorem load_state_fallback_on_parse_failure :
    load_state FileContent.missing = freshJson ∧
    load_state FileContent.unreadable = freshJson ∧
    load_state FileContent.invalidJson = freshJson ∧
    ∀ v, load_state (FileContent.parsed v) = v :=
  ⟨rfl, rfl, rfl, fun _ => rfl⟩

/-- C9: saving a document with `save_state` and reloading it with
`load_state` reproduces an equivalent document — the same task records
with the same fields and values and the same next-id counter — so one
store round-trip is the identity. -/
theorem save_load_roundtrip (d : Document) :
    decodeDoc (load_state (save_state d)) = some d ∧ storeCycle d = d :=
  ⟨decodeDoc_encodeDoc d, storeCycle_eq d⟩

/-- C2: `kill_task` returns `false` with no state mutation when the task id
is absent or the task is not `running`, and likewise when an `OSError`
arises while locating the process group or delivering SIGTERM; otherwise it
SIGTERMs the whole process group, sleeps the fixed 0.5 s grace interval,
re-probes existence, SIGKILLs the group if the process is still alive, and
in either case sets status `killed` with a completion timestamp and returns
`true`. -/
theorem kill_task_spec (env : KillEnv) (now : Nat) (d : Document) (tid : String) :
    (lookupTask d.tasks tid = none → kill_task env now d tid = (d, false, [])) ∧
    (∀ t, lookupTask d.tasks tid = some t → t.status ≠ Status.running →
      kill_task env now d tid = (d, false, [])) ∧
    (∀ t, lookupTask d.tasks tid = some t → t.status = Status.running →
      (env.pgid1 = none → kill_task env now d tid = (d, false, [])) ∧
      (∀ pg, env.pgid1 = some pg → env.termRaises = false →
        kill_task env now d tid =
          ({ d with tasks := setTask d.tasks tid { t with status := Status.killed, completed_at := some now } }, true,
           KillEv.sigterm pg :: KillEv.sleepMs 500 :: forcePhase env) ∧
        (env.aliveAfterTerm = false → forcePhase env = []) ∧
        (∀ pg2, env.aliveAfterTerm = true → env.pgid2 = some pg2 →
          env.killRaises = false → forcePhase env = [KillEv.sigkill pg2]))) := by
  refine ⟨?_, ?_, ?_⟩
  · intro h; simp [kill_task, h]
  · intro t hl hs; simp [kill_task, hl, hs]
  · intro t hl hs
    constructor
    · intro hpg; simp [kill_task, hl, hs, hpg]
    · intro pg hpg hterm
      refine ⟨by simp [kill_task, hl, hs, hpg, hterm], ?_, ?_⟩
      · intro hal; simp [forcePhase, hal]
      · intro pg2 hal hpg2 hkr; simp [forcePhase, hal, hpg2, hkr]

/-- A concrete store holding a running task, for the kill witness. -/
def killDoc : Document := { tasks := [("ralph_0001", sampleTask)], next_id := 2 }

/-- Witness for C2: a successful escalating kill of a concrete running
task, where the process survives the grace interval and receives SIGKILL. -/
theorem kill_task_spec_witness :
    kill_task okKillEnv 50 killDoc "ralph_0001" =
      ({ killDoc with tasks := setTask killDoc.tasks "ralph_0001" { sampleTask with status := Status.killed, completed_at := some 50 } }, true,
       [KillEv.sigterm 7, KillEv.sleepMs 500, KillEv.sigkill 7]) := by
  obtain ⟨heq, _, hforce⟩ :=
    ((kill_task_spec okKillEnv 50 killDoc "ralph_0001").2.2 sampleTask
      (by decide) rfl).2 7 rfl rfl
  rw [heq, hforce 7 rfl rfl rfl]

/-- C8: `get_task_output` returns at most the last `n` lines of the log
when `n > 0` (all of them when the log has fewer than `n` lines) and the
whole file when `n ≤ 0`; a missing task id, a missing log file, or an
I/O failure while reading each yields a descriptive message string. -/
theorem get_task_output_spec (d : Document) (fs : String → LogFile) (tid : String)
    (n : Int) :
    (lookupTask d.tasks tid = none →
      get_task_output d fs tid n = "Task " ++ tid ++ " not found") ∧
    (∀ t, lookupTask d.tasks tid = some t →
      (fs t.output_file = LogFile.absent →
        get_task_output d fs tid n = "No output file found") ∧
      (∀ e, fs t.output_file = LogFile.ioError e →
        get_task_output d fs tid n = "Error reading output: " ++ e) ∧
      (∀ ls, fs t.output_file = LogFile.lines ls →
        (n > 0 →
          get_task_output d fs tid n = String.join (ls.drop (ls.length - n.toNat)) ∧
          (ls.drop (ls.length - n.toNat)).length ≤ n.toNat) ∧
        (n ≤ 0 → get_task_output d fs tid n = String.join ls))) := by
  refine ⟨?_, ?_⟩
  · intro h; simp [get_task_output, h]
  · intro t hl
    refine ⟨?_, ?_, ?_⟩
    · intro h; simp [get_task_output, hl, h]
    · intro e h; simp [get_task_output, hl, h]
    · intro ls h
      constructor
      · intro hn
        refine ⟨by simp [get_task_output, hl, h, hn], ?_⟩
        rw [List.length_drop]
        omega
      · intro hn
        have hn' : ¬ n > 0 := by omega
        simp [get_task_output, hl, h, hn']

/-- A log-file oracle: the sample task's log holds three lines, every
other path is missing. -/
def threeLineFs : String → LogFile :=
  fun p => if p = "/tmp/ralph/ralph_0001.log"
    then LogFile.lines ["a\n", "b\n", "c\n"] else LogFile.absent

/-- Witness for C8: tailing 10 lines from a 3-line log returns all three
lines (and at most ten). -/
theorem get_task_output_spec_witness :
    get_task_output sampleDoc threeLineFs "ralph_0001" 10 =
      String.join (["a\n", "b\n", "c\n"].drop (["a\n", "b\n", "c\n"].length - (10 : Int).toNat)) ∧
    (["a\n", "b\n", "c\n"].drop (["a\n", "b\n", "c\n"].length - (10 : Int).toNat)).length ≤ (10 : Int).toNat := by
  obtain ⟨_, hrest⟩ := get_task_output_spec sampleDoc threeLineFs "ralph_0001" 10
  obtain ⟨_, _, hlines⟩ := hrest sampleTask (by decide)
  exact (hlines ["a\n", "b\n", "c\n"] (by decide)).1 (by decide)

/-- C6: across every sequence of `create` calls, each interleaved with the
store's save/load cycle, the generated task ids are of the form
`ralph_NNNN` for a strictly increasing sequence of counter values, and are
pairwise distinct. -/
theorem create_ids_unique_and_increasing (d : Document) (reqs : List CreateReq) :
    ∃ nums : List Nat,
      (createSeq d reqs).2 = nums.map taskIdOf ∧
      nums.Pairwise (· < ·) ∧
      (createSeq d reqs).2.Nodup := by
  refine ⟨(List.range reqs.length).map (fun i => d.next_id + i), ?_, ?_, ?_⟩
  · rw [createSeq_ids, List.map_map]
    rfl
  · rw [List.pairwise_map]
    exact (List.pairwise_lt_range reqs.length).imp fun h => by omega
  · rw [createSeq_ids]
    refine List.Nodup.map (fun a b h => ?_) (List.nodup_range reqs.length)
    have := taskIdOf_injective h
    omega

/-- C4: `clean_tasks` with `keep_running=true` leaves the registry holding
exactly the records that were `running` beforehand and returns the number
of removed records; a matched log file survives exactly when its task id is
still a key of the retained set.  With `keep_running=false` every record is
discarded. -/
theorem clean_tasks_spec (d : Document) (logs : List String) :
    ((clean_tasks true d logs).1.tasks =
      d.tasks.filter (fun p => p.2.status = Status.running)) ∧
    ((clean_tasks true d logs).2.2 =
      (d.tasks.filter (fun p => !(p.2.status = Status.running : Bool))).length) ∧
    (∀ s, s ∈ (clean_tasks true d logs).2.1 ↔
      s ∈ logs ∧ s ∈ (clean_tasks true d logs).1.tasks.map Prod.fst) ∧
    ((clean_tasks false d logs).1.tasks = [] ∧
      (clean_tasks false d logs).2.2 = d.tasks.length) := by
  refine ⟨rfl, ?_, ?_, rfl, ?_⟩
  · exact length_sub_length_filter d.tasks _
  · intro s
    show s ∈ logs.filter _ ↔ _
    rw [List.mem_filter]
    exact and_congr_right fun _ => lookupTask_isSome_iff _ s
  · show d.tasks.length - 0 = d.tasks.length
    omega

theorem pairwise_sortDesc (l : List Task) :
    (l.mergeSort (fun a b => decide (b.started_at ≤ a.started_at))).Pairwise
      (fun a b => b.started_at ≤ a.started_at) := by
  have hs := @List.sorted_mergeSort Task
    (fun a b : Task => decide (b.started_at ≤ a.started_at))
    (fun a b c hab hbc => decide_eq_true
      (Nat.le_trans (of_decide_eq_true hbc) (of_decide_eq_true hab)))
    (fun a b => by
      rcases Nat.le_total b.started_at a.started_at with h | h <;> simp [h])
    l
  exact hs.imp fun h => of_decide_eq_true h

/-- C7: `list_tasks` returns the tasks most-recently-started first, for
either value of `show_all`; with `show_all=false` the result is exactly
(a permutation of) the post-probe store's tasks that are currently
`running` or started within the last 24 hours, and the filtered-out tasks
remain in the store (its key set is unchanged). -/
theorem list_tasks_spec (env : OSEnv) (now : Nat) (d : Document) :
    (∀ show_all : Bool,
      (list_tasks env now show_all d).2.Pairwise (fun a b => b.started_at ≤ a.started_at)) ∧
    ((list_tasks env now false d).2.Perm
      (((list_tasks env now false d).1.tasks.map Prod.snd).filter (recentOrRunning now))) ∧
    ((list_tasks env now false d).1.tasks.map Prod.fst = d.tasks.map Prod.fst) := by
  refine ⟨?_, ?_, ?_⟩
  · intro sa
    cases sa
    · exact pairwise_sortDesc _
    · exact pairwise_sortDesc _
  · exact List.mergeSort_perm _ _
  · exact probeAll_fst_keys env now _ d

end Ralph
